import Mathlib

/-!
# Verification of the toast notification component

A shallow embedding of `src/components/toast/toast.js` (the toast
notification element, its stacking coordinator and the `showToast`
factory), of the near-duplicate variant of the same component found in
the repository (referred to below as the "V4 variant", whose `hide()`
grace callback checks `_autoHide` before detaching), and of
`GraphQLToastHandler.handleResponse`.

Modelling conventions:
* `document`/DOM state relevant to one toast element is collected in
  `ToastState`: the `_visible`, `_autoHide`, `_duration`, `_timerId`,
  `_type` fields, the host `classList`, whether the element has a
  parent in the document (`attached`), the icon attribute written by
  `_updateIcon`, and counters of dispatched `toast:shown` /
  `toast:hidden` events and of `_repositionAllToasts` passes.
* `setTimeout` callbacks owned by the element are modelled explicitly
  as a pending list of `PendingCB` values carrying the timer id
  returned by `setTimeout`; `clearTimeout` removes the entry with the
  given id; firing a callback removes it from the pending list and
  runs the callback body.  Fresh ids are drawn from `nextId`.
* `parseInt(x, 10)` returning `NaN` is modelled by
  `parseIntJS : String → Option Int` returning `none`; the JS
  comparison `NaN > 0` is `false`, modelled by `durPos`.
-/

namespace Toast

/-- A pending `setTimeout` callback owned by a toast element:
either the auto-dismiss timer armed by `show()` (body: `this.hide()`)
or the 300ms hide-animation grace callback scheduled by `hide()`. -/
inductive PendingCB where
  | dismiss (id : Nat)
  | grace (id : Nat)
deriving DecidableEq, Repr

/-- The timer id `setTimeout` returned for this callback. -/
def PendingCB.id : PendingCB → Nat
  | .dismiss i => i
  | .grace i => i

/-- Whether this pending callback is the auto-dismiss timer. -/
def PendingCB.isDismiss : PendingCB → Bool
  | .dismiss _ => true
  | .grace _ => false

/-- State of one `toast-element` plus the timer queue it owns. -/
structure ToastState where
  message : String
  typeField : String
  icon : Option String
  classes : List String
  duration : Option Int
  autoHide : Bool
  visible : Bool
  timerId : Option Nat
  attached : Bool
  pending : List PendingCB
  nextId : Nat
  shownEvents : Nat
  hiddenEvents : Nat
  repositions : Nat
deriving DecidableEq, Repr

/-- The constructor of `ToastElement`: `_duration = 3000`,
`_autoHide = true`, `_timerId = null`, `_type = "toast-info"`; the
element starts detached, not visible, with an empty class list. -/
def mkToast : ToastState :=
  { message := "", typeField := "toast-info", icon := none, classes := []
    duration := some 3000, autoHide := true, visible := false
    timerId := none, attached := false, pending := [], nextId := 0
    shownEvents := 0, hiddenEvents := 0, repositions := 0 }

/-- JS `classList.add`: adds the class if absent (DOM class lists are sets). -/
def classAdd (cs : List String) (c : String) : List String :=
  if c ∈ cs then cs else cs ++ [c]

/-- JS `classList.remove`. -/
def classRemove (cs : List String) (c : String) : List String :=
  cs.filter (fun x => x != c)

/-- JS `clearTimeout id`: drop the pending callback with that id. -/
def clearTimeout (pend : List PendingCB) (i : Nat) : List PendingCB :=
  pend.filter (fun cb => cb.id != i)

/-- The pending auto-dismiss timers among the pending callbacks. -/
def dismisses (pend : List PendingCB) : List PendingCB :=
  pend.filter PendingCB.isDismiss

/-- JS `this._duration > 0` where `_duration` may be `NaN` (`none`):
`NaN > 0` evaluates to `false`. -/
def durPos : Option Int → Bool
  | some d => decide (0 < d)
  | none => false

/-- Decimal digit run parser backing `parseIntJS`. -/
def parseNatChars (cs : List Char) : Option Nat :=
  let ds := cs.takeWhile Char.isDigit
  if ds.isEmpty then none
  else some (ds.foldl (fun a c => a * 10 + (c.toNat - '0'.toNat)) 0)

/-- JS `parseInt(s, 10)`: skip leading whitespace, optional sign, then a
run of decimal digits; `NaN` (here `none`) when no digits follow. -/
def parseIntJS (s : String) : Option Int :=
  let cs := s.data.dropWhile (fun c => c = ' ' ∨ c = '\t' ∨ c = '\n' ∨ c = '\r')
  match cs with
  | '-' :: rest => (parseNatChars rest).map (fun n => -(n : Int))
  | '+' :: rest => (parseNatChars rest).map (fun n => (n : Int))
  | rest => (parseNatChars rest).map (fun n => (n : Int))

/-- First-occurrence replacement by the empty string, on character
lists: JS `s.replace(pat, "")` with a string pattern replaces only the
first occurrence. -/
def replaceFirstAux (pat : List Char) : List Char → List Char
  | [] => []
  | c :: rest =>
    if pat.isPrefixOf (c :: rest) then (c :: rest).drop pat.length
    else c :: replaceFirstAux pat rest

/-- JS `s.replace(pat, "")` for a string pattern. -/
def jsReplaceFirst (s pat : String) : String :=
  ⟨replaceFirstAux pat.data s.data⟩

/-- The icon update `_updateIcon`: `iconName = type.replace("toast-", "") || "info"`. -/
def jsIconName (v : String) : String :=
  let n := jsReplaceFirst v "toast-"
  if n = "" then "info" else n

/-- First half of the `type` setter: `if (this._type)
classList.remove(this._type)` (the empty string is the only falsy
string). -/
def setTypeRemovePhase (s : ToastState) : ToastState :=
  if s.typeField = "" then s
  else { s with classes := classRemove s.classes s.typeField }

/-- Second half of the `type` setter: `this._type = `toast-${value}`;
classList.add(this._type); this._updateIcon(value)`. -/
def setTypeAddPhase (s : ToastState) (value : String) : ToastState :=
  let t := "toast-" ++ value
  { s with typeField := t, classes := classAdd s.classes t
           icon := some (jsIconName value) }

/-- The `type` setter. -/
def setType (s : ToastState) (value : String) : ToastState :=
  setTypeAddPhase (setTypeRemovePhase s) value

/-- The `type` getter: `this._type.replace("toast-", "")`. -/
def typeGetter (s : ToastState) : String :=
  jsReplaceFirst s.typeField "toast-"

/-- The `duration` setter. -/
def setDuration (s : ToastState) (d : Int) : ToastState :=
  { s with duration := some d }

/-- The `autoHide` setter. -/
def setAutoHide (s : ToastState) (b : Bool) : ToastState :=
  { s with autoHide := b }

/-- The `message` setter (writes the shadow DOM message slot). -/
def setMessage (s : ToastState) (m : String) : ToastState :=
  { s with message := m }

/-- Operation `show()`: no-op when already visible; otherwise set `_visible`,
add the `visible` class, dispatch `toast:shown`, reposition all
toasts, and arm the auto-dismiss timer iff `_autoHide && _duration > 0`. -/
def showEl (s : ToastState) : ToastState :=
  if s.visible then s
  else
    let s1 := { s with visible := true, classes := classAdd s.classes "visible"
                       shownEvents := s.shownEvents + 1
                       repositions := s.repositions + 1 }
    if s1.autoHide && durPos s1.duration then
      { s1 with timerId := some s1.nextId
                pending := s1.pending ++ [PendingCB.dismiss s1.nextId]
                nextId := s1.nextId + 1 }
    else s1

/-- Operation `hide()`: no-op when already hidden; otherwise clear `_visible`,
remove the `visible` class, cancel the pending auto-dismiss timer if
any (`clearTimeout`), then schedule the 300ms grace callback. -/
def hide (s : ToastState) : ToastState :=
  if s.visible then
    let s1 := { s with visible := false
                       classes := classRemove s.classes "visible" }
    let s2 := match s1.timerId with
      | some t => { s1 with pending := clearTimeout s1.pending t, timerId := none }
      | none => s1
    { s2 with pending := s2.pending ++ [PendingCB.grace s2.nextId]
              nextId := s2.nextId + 1 }
  else s

/-- Body of the 300ms grace callback in `src/components/toast/toast.js`:
dispatch `toast:hidden`; `if (this.parentNode)
this.parentNode.removeChild(this)` — the element is detached whenever
it still has a parent, regardless of `_autoHide`; then reposition. -/
def graceBody (s : ToastState) : ToastState :=
  let s1 := { s with hiddenEvents := s.hiddenEvents + 1 }
  let s2 := if s1.attached then { s1 with attached := false } else s1
  { s2 with repositions := s2.repositions + 1 }

/-- Body of the 300ms grace callback in the V4 variant of the
component: dispatch the hidden event; `if (this._autoHide)
this.parentNode?.removeChild(this)` — the element is detached only
when `_autoHide` is set; then reposition. -/
def graceBodyV4 (s : ToastState) : ToastState :=
  let s1 := { s with hiddenEvents := s.hiddenEvents + 1 }
  let s2 := if s1.autoHide && s1.attached then { s1 with attached := false } else s1
  { s2 with repositions := s2.repositions + 1 }

/-- One event-loop step on a toast element: a `show()` or `hide()`
call, a property setter, or expiry of one of the element's pending
timers (the browser dequeues the fired callback, then runs its body). -/
inductive Step : ToastState → ToastState → Prop where
  | callShow (s : ToastState) : Step s (showEl s)
  | callHide (s : ToastState) : Step s (hide s)
  | fireDismiss (s : ToastState) (t : Nat) :
      PendingCB.dismiss t ∈ s.pending →
      Step s (hide { s with pending := clearTimeout s.pending t })
  | fireGrace (s : ToastState) (t : Nat) :
      PendingCB.grace t ∈ s.pending →
      Step s (graceBody { s with pending := clearTimeout s.pending t })
  | setDur (s : ToastState) (d : Int) : Step s (setDuration s d)
  | setAH (s : ToastState) (b : Bool) : Step s (setAutoHide s b)
  | setMsg (s : ToastState) (m : String) : Step s (setMessage s m)
  | setTy (s : ToastState) (v : String) : Step s (setType s v)

/-- Reachability under `Step`. -/
inductive Reach : ToastState → ToastState → Prop where
  | refl (s : ToastState) : Reach s s
  | tail {s t u : ToastState} : Reach s t → Step t u → Reach s u

/-- Timer-queue invariant of a toast element: pending timer ids are
fresh-bounded and distinct; the pending auto-dismiss timers are empty
when `_timerId` is null and at most the single timer `_timerId` refers
to otherwise; and a hidden element holds no auto-dismiss timer. -/
structure Inv (s : ToastState) : Prop where
  idsLt : ∀ cb ∈ s.pending, cb.id < s.nextId
  nodup : (s.pending.map PendingCB.id).Nodup
  timerNone : s.timerId = none → dismisses s.pending = []
  timerSome : ∀ t, s.timerId = some t →
    dismisses s.pending = [] ∨ dismisses s.pending = [PendingCB.dismiss t]
  notVis : s.visible = false → s.timerId = none

theorem inv_mkToast : Inv mkToast := by
  constructor <;> simp [mkToast, dismisses]

theorem dismisses_append (p q : List PendingCB) :
    dismisses (p ++ q) = dismisses p ++ dismisses q := by
  simp [dismisses, List.filter_append]

theorem dismisses_clearTimeout (p : List PendingCB) (i : Nat) :
    dismisses (clearTimeout p i) = clearTimeout (dismisses p) i := by
  simp only [dismisses, clearTimeout]
  induction p with
  | nil => rfl
  | cons cb rest ih =>
    by_cases h1 : cb.id = i <;> cases cb <;>
      simp_all [PendingCB.isDismiss, PendingCB.id]

theorem clearTimeout_sublist (p : List PendingCB) (i : Nat) :
    (clearTimeout p i).Sublist p :=
  List.filter_sublist p

theorem mem_clearTimeout (p : List PendingCB) (i : Nat) (cb : PendingCB) :
    cb ∈ clearTimeout p i ↔ cb ∈ p ∧ cb.id ≠ i := by
  simp [clearTimeout, List.mem_filter]

theorem nodup_append_fresh (p : List PendingCB) (cb : PendingCB) (n : Nat)
    (h : (p.map PendingCB.id).Nodup) (hlt : ∀ c ∈ p, c.id < n) (hcb : cb.id = n) :
    ((p ++ [cb]).map PendingCB.id).Nodup := by
  rw [List.map_append]
  apply List.Nodup.append h (by simp)
  intro a ha hb
  simp only [List.map_cons, List.map_nil, List.mem_singleton] at hb
  rcases List.mem_map.mp ha with ⟨c, hc, rfl⟩
  have := hlt c hc
  omega

theorem mem_dismisses (p : List PendingCB) (t : Nat) :
    PendingCB.dismiss t ∈ dismisses p ↔ PendingCB.dismiss t ∈ p := by
  simp [dismisses, List.mem_filter, PendingCB.isDismiss]

theorem showEl_of_visible {s : ToastState} (hv : s.visible = true) :
    showEl s = s := by
  simp [showEl, hv]

theorem showEl_eq_armed {s : ToastState} (hv : s.visible = false)
    (hc : (s.autoHide && durPos s.duration) = true) :
    showEl s = { s with visible := true
                        classes := classAdd s.classes "visible"
                        shownEvents := s.shownEvents + 1
                        repositions := s.repositions + 1
                        timerId := some s.nextId
                        pending := s.pending ++ [PendingCB.dismiss s.nextId]
                        nextId := s.nextId + 1 } := by
  simp [showEl, hv, hc]

theorem showEl_eq_unarmed {s : ToastState} (hv : s.visible = false)
    (hc : (s.autoHide && durPos s.duration) = false) :
    showEl s = { s with visible := true
                        classes := classAdd s.classes "visible"
                        shownEvents := s.shownEvents + 1
                        repositions := s.repositions + 1 } := by
  simp [showEl, hv, hc]

theorem hide_of_hidden {s : ToastState} (hv : s.visible = false) :
    hide s = s := by
  simp [hide, hv]

theorem hide_eq_of_timer_none {s : ToastState} (hv : s.visible = true)
    (ht : s.timerId = none) :
    hide s = { s with visible := false
                      classes := classRemove s.classes "visible"
                      pending := s.pending ++ [PendingCB.grace s.nextId]
                      nextId := s.nextId + 1 } := by
  simp [hide, hv, ht]

theorem hide_eq_of_timer_some {s : ToastState} (hv : s.visible = true)
    {t : Nat} (ht : s.timerId = some t) :
    hide s = { s with visible := false
                      classes := classRemove s.classes "visible"
                      timerId := none
                      pending := clearTimeout s.pending t ++ [PendingCB.grace s.nextId]
                      nextId := s.nextId + 1 } := by
  simp [hide, hv, ht]

theorem hide_inv {s : ToastState} (inv : Inv s) : Inv (hide s) := by
  by_cases hv : s.visible = true
  · cases ht : s.timerId with
    | none =>
      rw [hide_eq_of_timer_none hv ht]
      refine ⟨?_, ?_, ?_, ?_, ?_⟩
      · intro cb hcb
        rcases List.mem_append.mp hcb with h | h
        · exact Nat.lt_succ_of_lt (inv.idsLt cb h)
        · simp only [List.mem_singleton] at h
          subst h; simp [PendingCB.id]
      · exact nodup_append_fresh _ _ _ inv.nodup inv.idsLt rfl
      · intro _
        rw [dismisses_append, inv.timerNone ht]
        simp [dismisses, PendingCB.isDismiss]
      · intro t h; simp [ht] at h
      · intro _; exact ht
    | some t =>
      rw [hide_eq_of_timer_some hv ht]
      refine ⟨?_, ?_, ?_, ?_, ?_⟩
      · intro cb hcb
        rcases List.mem_append.mp hcb with h | h
        · exact Nat.lt_succ_of_lt (inv.idsLt cb ((mem_clearTimeout _ _ _).mp h).1)
        · simp only [List.mem_singleton] at h
          subst h; simp [PendingCB.id]
      · refine nodup_append_fresh _ _ _ ?_ ?_ rfl
        · exact ((clearTimeout_sublist s.pending t).map PendingCB.id).nodup inv.nodup
        · exact fun c hc => inv.idsLt c ((mem_clearTimeout _ _ _).mp hc).1
      · intro _
        rw [dismisses_append, dismisses_clearTimeout]
        rcases inv.timerSome t ht with h | h <;> rw [h] <;>
          simp [clearTimeout, dismisses, PendingCB.isDismiss, PendingCB.id]
      · intro t' h; simp at h
      · intro _; rfl
  · rw [hide_of_hidden (by simpa using hv)]; exact inv

theorem showEl_inv {s : ToastState} (inv : Inv s) : Inv (showEl s) := by
  by_cases hv : s.visible = true
  · rw [showEl_of_visible hv]; exact inv
  · have hv' : s.visible = false := by simpa using hv
    have ht : s.timerId = none := inv.notVis hv'
    have hd : dismisses s.pending = [] := inv.timerNone ht
    by_cases hc : (s.autoHide && durPos s.duration) = true
    · rw [showEl_eq_armed hv' hc]
      refine ⟨?_, ?_, ?_, ?_, ?_⟩
      · intro cb hcb
        rcases List.mem_append.mp hcb with h | h
        · exact Nat.lt_succ_of_lt (inv.idsLt cb h)
        · simp only [List.mem_singleton] at h
          subst h; simp [PendingCB.id]
      · exact nodup_append_fresh _ _ _ inv.nodup inv.idsLt rfl
      · intro h; simp at h
      · intro t h
        right
        rw [dismisses_append, hd]
        simp only [Option.some_inj] at h
        subst h
        simp [dismisses, PendingCB.isDismiss]
      · intro h; simp at h
    · rw [showEl_eq_unarmed hv' (by simpa using hc)]
      refine ⟨inv.idsLt, inv.nodup, fun _ => hd, ?_, ?_⟩
      · intro t h
        rw [ht] at h; simp at h
      · intro h; simp at h

theorem graceBody_fields (s : ToastState) :
    (graceBody s).pending = s.pending ∧ (graceBody s).nextId = s.nextId ∧
    (graceBody s).timerId = s.timerId ∧ (graceBody s).visible = s.visible := by
  simp only [graceBody]
  split <;> simp

theorem graceBody_inv {s : ToastState} (inv : Inv s) : Inv (graceBody s) := by
  obtain ⟨h1, h2, h3, h4⟩ := graceBody_fields s
  exact ⟨by rw [h1, h2]; exact inv.idsLt, by rw [h1]; exact inv.nodup,
         by rw [h1, h3]; exact inv.timerNone,
         by rw [h1, h3]; exact inv.timerSome,
         by rw [h3, h4]; exact inv.notVis⟩

/-- An element that still owns a pending auto-dismiss timer is visible. -/
theorem visible_of_dismiss_mem {s : ToastState} (inv : Inv s) {t : Nat}
    (hd : PendingCB.dismiss t ∈ s.pending) :
    s.visible = true ∧ s.timerId = some t := by
  cases ht : s.timerId with
  | none =>
    have := inv.timerNone ht
    have : PendingCB.dismiss t ∈ dismisses s.pending := (mem_dismisses _ _).mpr hd
    simp_all
  | some t' =>
    have hmem : PendingCB.dismiss t ∈ dismisses s.pending := (mem_dismisses _ _).mpr hd
    rcases inv.timerSome t' ht with h | h
    · simp [h] at hmem
    · rw [h] at hmem
      simp only [List.mem_singleton, PendingCB.dismiss.injEq] at hmem
      subst hmem
      constructor
      · by_contra hvis
        have : s.timerId = none := inv.notVis (by simpa using hvis)
        simp [this] at ht
      · rfl

theorem clear_fired_inv {s : ToastState} (inv : Inv s) (t : Nat)
    (hne : ∀ t', s.timerId = some t' → dismisses (clearTimeout s.pending t) = []
      ∨ dismisses (clearTimeout s.pending t) = [PendingCB.dismiss t']) :
    Inv { s with pending := clearTimeout s.pending t } := by
  refine ⟨?_, ?_, ?_, hne, inv.notVis⟩
  · exact fun cb hcb => inv.idsLt cb ((mem_clearTimeout _ _ _).mp hcb).1
  · exact ((clearTimeout_sublist s.pending t).map PendingCB.id).nodup inv.nodup
  · intro h
    rw [dismisses_clearTimeout, inv.timerNone h]
    rfl

theorem step_inv {s s' : ToastState} (inv : Inv s) (st : Step s s') : Inv s' := by
  cases st with
  | callShow => exact showEl_inv inv
  | callHide => exact hide_inv inv
  | fireDismiss t hd =>
    refine hide_inv (clear_fired_inv inv t ?_)
    intro t' ht'
    left
    obtain ⟨_, ht⟩ := visible_of_dismiss_mem inv hd
    rw [ht] at ht'
    simp only [Option.some_inj] at ht'
    subst ht'
    rw [dismisses_clearTimeout]
    rcases inv.timerSome t ht with h | h <;>
      simp [h, clearTimeout, PendingCB.id]
  | fireGrace t hg =>
    refine graceBody_inv (clear_fired_inv inv t ?_)
    intro t' ht'
    rw [dismisses_clearTimeout]
    rcases inv.timerSome t' ht' with h | h
    · left; simp [h, clearTimeout]
    · right
      rw [h]
      have htmem : PendingCB.dismiss t' ∈ s.pending := by
        rw [← mem_dismisses, h]; simp
      have hne : t ≠ t' := by
        intro heq
        subst heq
        have := List.inj_on_of_nodup_map inv.nodup hg htmem rfl
        simp at this
      simp [clearTimeout, PendingCB.id, hne, Ne.symm hne]
  | setDur d => exact ⟨inv.idsLt, inv.nodup, inv.timerNone, inv.timerSome, inv.notVis⟩
  | setAH b => exact ⟨inv.idsLt, inv.nodup, inv.timerNone, inv.timerSome, inv.notVis⟩
  | setMsg m => exact ⟨inv.idsLt, inv.nodup, inv.timerNone, inv.timerSome, inv.notVis⟩
  | setTy v =>
    refine ⟨?_, ?_, ?_, ?_, ?_⟩ <;>
      simp only [setType, setTypeAddPhase, setTypeRemovePhase] <;>
      split <;>
      first
      | exact inv.idsLt
      | exact inv.nodup
      | exact inv.timerNone
      | exact inv.timerSome
      | exact inv.notVis

theorem reach_inv {s s' : ToastState} (inv : Inv s) (r : Reach s s') : Inv s' := by
  induction r with
  | refl => exact inv
  | tail _ st ih => exact step_inv ih st

/-- The loop body of `_repositionAllToasts`: walking the reversed
attached list, each toast gets `bottom = 20 + cumulativeHeight` and
then `cumulativeHeight += scrollHeight + 10`.  Input: the rendered
heights in walk order; output: `(height, bottom)` pairs in walk order. -/
def stackAssign : Nat → List Nat → List (Nat × Nat)
  | _, [] => []
  | cum, h :: rest => (h, 20 + cum) :: stackAssign (cum + h + 10) rest

/-- The coordinator `_repositionAllToasts`: `document.querySelectorAll("toast-element")`
yields the attached toasts in attachment (document) order `r1..rN`;
the list is reversed and walked with the cumulative offset.  Input:
rendered heights in attachment order; output: `(height, bottom)` pairs
in walk order, i.e. most recently attached first. -/
def repositionAll (heights : List Nat) : List (Nat × Nat) :=
  stackAssign 0 heights.reverse

theorem stackAssign_length (cum : Nat) (hs : List Nat) :
    (stackAssign cum hs).length = hs.length := by
  induction hs generalizing cum with
  | nil => rfl
  | cons h rest ih => simp [stackAssign, ih]

theorem stackAssign_map_fst (cum : Nat) (hs : List Nat) :
    (stackAssign cum hs).map Prod.fst = hs := by
  induction hs generalizing cum with
  | nil => rfl
  | cons h rest ih => simp [stackAssign, ih]

theorem stackAssign_offset_ge (hs : List Nat) (cum j : Nat) (hj : j < hs.length) :
    20 + cum ≤ ((stackAssign cum hs).getD j (0, 0)).2 := by
  induction hs generalizing cum j with
  | nil => simp at hj
  | cons h rest ih =>
    cases j with
    | zero => simp [stackAssign]
    | succ j =>
      simp only [stackAssign, List.getD_cons_succ]
      have := ih (cum + h + 10) j (by simpa using hj)
      omega

/-- Walking the reversed list, each later-walked toast sits at least
`height + 10` above every earlier-walked one. -/
theorem stackAssign_gap (hs : List Nat) (cum i j : Nat) (hij : i < j)
    (hj : j < hs.length) :
    ((stackAssign cum hs).getD i (0, 0)).2 + ((stackAssign cum hs).getD i (0, 0)).1 + 10
      ≤ ((stackAssign cum hs).getD j (0, 0)).2 := by
  induction hs generalizing cum i j with
  | nil => simp at hj
  | cons h rest ih =>
    cases i with
    | zero =>
      cases j with
      | zero => omega
      | succ j =>
        simp only [stackAssign, List.getD_cons_zero, List.getD_cons_succ]
        have := stackAssign_offset_ge rest (cum + h + 10) j (by simpa using hj)
        omega
    | succ i =>
      cases j with
      | zero => omega
      | succ j =>
        simp only [stackAssign, List.getD_cons_succ]
        exact ih (cum + h + 10) i j (by omega) (by simpa using hj)

/-- Options record accepted by the `showToast` factory; `none` marks
an absent key. -/
structure ToastOptions where
  message : Option String := none
  type : Option String := none
  duration : Option Int := none
  autoHide : Option Bool := none

/-- The `showToast` factory: destructure the options with defaults
`{message = "", type = "info", duration = 3000, autoHide = true}`,
create one `toast-element`, assign its properties, append it to
`document.body`, call `show()`, register the `toast:hidden` listener,
and return the element. -/
def showToast (opts : ToastOptions) : ToastState :=
  let t := mkToast
  let t := setMessage t (opts.message.getD "")
  let t := setType t (opts.type.getD "info")
  let t := setDuration t (opts.duration.getD 3000)
  let t := setAutoHide t (opts.autoHide.getD true)
  let t := { t with attached := true }
  showEl t

/-- Body of the 200ms callback the factory's `toast:hidden` listener
schedules: `if (document.body.contains(toast))
document.body.removeChild(toast)` — the element is removed iff it is
still attached; `autoHide` is not consulted. -/
def factoryRemovalBody (s : ToastState) : ToastState :=
  if s.attached then { s with attached := false } else s

/-- One entry of a GraphQL `response.errors` array. -/
structure GqlError where
  message : Option String := none
deriving DecidableEq, Repr

/-- The `extensions` object of a GraphQL response. -/
structure GqlExtensions where
  successMessage : Option String := none
deriving DecidableEq, Repr

/-- A GraphQL response object with `data`, `errors` and `extensions`
fields; `none` marks an absent field, and the data payload type is
abstract. -/
structure GqlResponse (α : Type) where
  data : Option α := none
  errors : Option (List GqlError) := none
  extensions : Option GqlExtensions := none

/-- One invocation of the `showToast` factory made by
`GraphQLToastHandler.handleResponse`. -/
structure ToastCall where
  type : String
  message : String
  duration : Int
deriving DecidableEq, Repr

/-- JS `x || fb` on an optional string: the empty string is falsy. -/
def jsOrElse (m : Option String) (fb : String) : String :=
  match m with
  | some s => if s = "" then fb else s
  | none => fb

/-- The success branch of `handleResponse`: `response.extensions &&
response.extensions.successMessage` (an absent object and the empty
string are falsy). -/
def successCalls (ext : Option GqlExtensions) (d : Int) : List ToastCall :=
  match ext with
  | some e =>
    match e.successMessage with
    | some m =>
      if m = "" then []
      else [{ type := "success", message := m, duration := d }]
    | none => []
  | none => []

/-- The handler `GraphQLToastHandler.handleResponse(response, duration)`: one
error toast per entry of a non-empty `response.errors` (message
`error.message || "An error occurred"`), otherwise one success toast
when `response.extensions.successMessage` is truthy; returns
`response.data`.  Result: the factory invocations made, paired with
the returned data. -/
def handleResponse {α : Type} (r : GqlResponse α) (d : Int) :
    List ToastCall × Option α :=
  let calls :=
    match r.errors with
    | some errs =>
      if 0 < errs.length then
        errs.map (fun e =>
          { type := "error", message := jsOrElse e.message "An error occurred"
            duration := d })
      else successCalls r.extensions d
    | none => successCalls r.extensions d
  (calls, r.data)

/-- The declarative attributes of a `toast-element`; `none` marks an
absent attribute. -/
structure Attrs where
  message : Option String := none
  type : Option String := none
  duration : Option String := none
  autoHide : Option String := none

/-- Lifecycle `connectedCallback()`: initialize from attributes when present;
without a `type` attribute the default `_type` class and icon are
applied; a `duration` attribute goes through `parseInt(·, 10)`; for
`auto-hide` the string `"false"` is the only falsy sentinel. -/
def connectedCallback (s : ToastState) (a : Attrs) : ToastState :=
  let s := match a.message with
    | some m => { s with message := m }
    | none => s
  let s := match a.type with
    | some t => setType s t
    | none => { s with classes := classAdd s.classes s.typeField
                       icon := some (jsIconName s.typeField) }
  let s := match a.duration with
    | some dstr => { s with duration := parseIntJS dstr }
    | none => s
  match a.autoHide with
  | some v => { s with autoHide := v != "false" }
  | none => s

@[simp] theorem showEl_visible (s : ToastState) : (showEl s).visible = true := by
  by_cases h : s.visible = true
  · rw [showEl_of_visible h]; exact h
  · have h' : s.visible = false := by simpa using h
    by_cases hc : (s.autoHide && durPos s.duration) = true
    · rw [showEl_eq_armed h' hc]
    · rw [showEl_eq_unarmed h' (by simpa using hc)]

@[simp] theorem showEl_message (s : ToastState) :
    (showEl s).message = s.message := by
  simp only [showEl]; split
  · rfl
  · split <;> rfl

@[simp] theorem showEl_typeField (s : ToastState) :
    (showEl s).typeField = s.typeField := by
  simp only [showEl]; split
  · rfl
  · split <;> rfl

@[simp] theorem showEl_duration (s : ToastState) :
    (showEl s).duration = s.duration := by
  simp only [showEl]; split
  · rfl
  · split <;> rfl

@[simp] theorem showEl_autoHide (s : ToastState) :
    (showEl s).autoHide = s.autoHide := by
  simp only [showEl]; split
  · rfl
  · split <;> rfl

@[simp] theorem showEl_attached (s : ToastState) :
    (showEl s).attached = s.attached := by
  simp only [showEl]; split
  · rfl
  · split <;> rfl

@[simp] theorem showEl_icon (s : ToastState) :
    (showEl s).icon = s.icon := by
  simp only [showEl]; split
  · rfl
  · split <;> rfl

@[simp] theorem showEl_hiddenEvents (s : ToastState) :
    (showEl s).hiddenEvents = s.hiddenEvents := by
  simp only [showEl]; split
  · rfl
  · split <;> rfl

theorem showEl_shownEvents_of_hidden {s : ToastState} (hv : s.visible = false) :
    (showEl s).shownEvents = s.shownEvents + 1 := by
  by_cases hc : (s.autoHide && durPos s.duration) = true
  · rw [showEl_eq_armed hv hc]
  · rw [showEl_eq_unarmed hv (by simpa using hc)]

@[simp] theorem setType_typeField (s : ToastState) (v : String) :
    (setType s v).typeField = "toast-" ++ v := rfl

@[simp] theorem setType_icon (s : ToastState) (v : String) :
    (setType s v).icon = some (jsIconName v) := rfl

@[simp] theorem setType_message (s : ToastState) (v : String) :
    (setType s v).message = s.message := by
  simp only [setType, setTypeAddPhase, setTypeRemovePhase]; split <;> rfl

@[simp] theorem setType_duration (s : ToastState) (v : String) :
    (setType s v).duration = s.duration := by
  simp only [setType, setTypeAddPhase, setTypeRemovePhase]; split <;> rfl

@[simp] theorem setType_autoHide (s : ToastState) (v : String) :
    (setType s v).autoHide = s.autoHide := by
  simp only [setType, setTypeAddPhase, setTypeRemovePhase]; split <;> rfl

@[simp] theorem setType_visible (s : ToastState) (v : String) :
    (setType s v).visible = s.visible := by
  simp only [setType, setTypeAddPhase, setTypeRemovePhase]; split <;> rfl

@[simp] theorem setType_attached (s : ToastState) (v : String) :
    (setType s v).attached = s.attached := by
  simp only [setType, setTypeAddPhase, setTypeRemovePhase]; split <;> rfl

@[simp] theorem setType_pending (s : ToastState) (v : String) :
    (setType s v).pending = s.pending := by
  simp only [setType, setTypeAddPhase, setTypeRemovePhase]; split <;> rfl

@[simp] theorem setType_nextId (s : ToastState) (v : String) :
    (setType s v).nextId = s.nextId := by
  simp only [setType, setTypeAddPhase, setTypeRemovePhase]; split <;> rfl

@[simp] theorem setType_timerId (s : ToastState) (v : String) :
    (setType s v).timerId = s.timerId := by
  simp only [setType, setTypeAddPhase, setTypeRemovePhase]; split <;> rfl

@[simp] theorem setType_shownEvents (s : ToastState) (v : String) :
    (setType s v).shownEvents = s.shownEvents := by
  simp only [setType, setTypeAddPhase, setTypeRemovePhase]; split <;> rfl

@[simp] theorem setType_hiddenEvents (s : ToastState) (v : String) :
    (setType s v).hiddenEvents = s.hiddenEvents := by
  simp only [setType, setTypeAddPhase, setTypeRemovePhase]; split <;> rfl

theorem isPrefixOf_append (l rest : List Char) : l.isPrefixOf (l ++ rest) = true := by
  induction l with
  | nil => simp [List.isPrefixOf]
  | cons c cs ih => simp [List.isPrefixOf, ih]

theorem replaceFirstAux_drop_pat (c : Char) (ps rest : List Char) :
    replaceFirstAux (c :: ps) ((c :: ps) ++ rest) = rest := by
  have hpre : (c :: ps).isPrefixOf ((c :: ps) ++ rest) = true := isPrefixOf_append _ _
  simp only [List.cons_append] at hpre ⊢
  rw [replaceFirstAux, if_pos hpre, ← List.cons_append, List.drop_left]

theorem jsReplaceFirst_toast (v : String) :
    jsReplaceFirst ("toast-" ++ v) "toast-" = v := by
  unfold jsReplaceFirst
  rw [show ("toast-" ++ v).data = "toast-".data ++ v.data from String.data_append _ _]
  rw [show ("toast-".data : List Char) = 't' :: ['o', 'a', 's', 't', '-'] from rfl]
  rw [replaceFirstAux_drop_pat]

/-- The kind style-markers are the host classes the `type` setter
manages, all of the form `toast-<kind>`. -/
def isKindMarker (c : String) : Bool := "toast-".data.isPrefixOf c.data

/-- Kind-marker invariant of the host class list: every class of the
form `toast-<kind>` is exactly the current `_type`, so at most one
kind marker is ever applied. -/
def MarkerInv (s : ToastState) : Prop :=
  ∀ c ∈ s.classes, isKindMarker c = true → c = s.typeField

/-! ## Claims -/

/-- A visible, attached toast whose `autoHide` property is `false`. -/
def nonAutoHideToast : ToastState :=
  showEl { mkToast with autoHide := false, attached := true }

/-- The same toast right after an explicit `hide()` call: the 300ms
grace callback (timer id 0) is pending. -/
def nonAutoHideHidden : ToastState := hide nonAutoHideToast

/-- The same toast after the grace callback fires under the reference
implementation (`src/components/toast/toast.js`). -/
def nonAutoHideGraceFired : ToastState :=
  graceBody { nonAutoHideHidden with pending := clearTimeout nonAutoHideHidden.pending 0 }

/-- The same toast after the grace callback fires under the V4 variant. -/
def nonAutoHideGraceFiredV4 : ToastState :=
  graceBodyV4 { nonAutoHideHidden with pending := clearTimeout nonAutoHideHidden.pending 0 }

/-- C1: a visible, attached toast with `autoHide = false` is detached
from the display surface by the grace callback that follows an
explicit `hide()`: the reference implementation's callback removes the
element from its parent whenever it still has one (guard
`if (this.parentNode)`) without consulting `_autoHide`, contradicting
both the specified behavior and the code's own comment ("If this is
from auto-hide, remove the element from DOM"); the V4 variant of the
same component, which guards on `_autoHide`, keeps the element
attached on the same input. -/
theorem autoHide_false_detached_by_grace :
    nonAutoHideToast.autoHide = false
    ∧ nonAutoHideToast.visible = true
    ∧ nonAutoHideToast.attached = true
    ∧ PendingCB.grace 0 ∈ nonAutoHideHidden.pending
    ∧ Step nonAutoHideHidden nonAutoHideGraceFired
    ∧ nonAutoHideGraceFired.attached = false
    ∧ nonAutoHideGraceFiredV4.attached = true :=
  ⟨by decide, by decide, by decide, by decide,
   Step.fireGrace nonAutoHideHidden 0 (by decide), by decide, by decide⟩

/-- C2: along any sequence of `show()`/`hide()` calls, property writes
and timer expiries from a freshly constructed element, at most one
auto-dismiss timer is ever pending; when the element is hidden no
auto-dismiss timer is pending at all (so `show()` arms only when the
prior timer is provably absent); and `hide()` on a visible element
cancels the pending auto-dismiss timer (none survives) while
scheduling the grace callback. -/
theorem at_most_one_dismiss_timer (s : ToastState) (h : Reach mkToast s) :
    (dismisses s.pending).length ≤ 1
    ∧ (s.visible = false → dismisses s.pending = [])
    ∧ (s.visible = true → dismisses (hide s).pending = []
        ∧ PendingCB.grace s.nextId ∈ (hide s).pending) := by
  have inv := reach_inv inv_mkToast h
  refine ⟨?_, fun hv => inv.timerNone (inv.notVis hv), ?_⟩
  · cases ht : s.timerId with
    | none => simp [inv.timerNone ht]
    | some t => rcases inv.timerSome t ht with h' | h' <;> simp [h']
  · intro hv
    cases ht : s.timerId with
    | none =>
      rw [hide_eq_of_timer_none hv ht]
      refine ⟨?_, ?_⟩
      · rw [dismisses_append, inv.timerNone ht]
        simp [dismisses, PendingCB.isDismiss]
      · simp
    | some t =>
      rw [hide_eq_of_timer_some hv ht]
      refine ⟨?_, ?_⟩
      · rw [dismisses_append, dismisses_clearTimeout]
        rcases inv.timerSome t ht with h' | h' <;> rw [h'] <;>
          simp [clearTimeout, dismisses, PendingCB.isDismiss, PendingCB.id]
      · simp

/-- Witness for C2 at the concrete state reached by one `show()`. -/
theorem at_most_one_dismiss_timer_witness :
    (dismisses (showEl mkToast).pending).length ≤ 1 :=
  (at_most_one_dismiss_timer (showEl mkToast)
    (Reach.tail (Reach.refl mkToast) (Step.callShow mkToast))).1

/-- C3: after one full `_repositionAllToasts` pass over attached
toasts `r1..rN` (heights in attachment order), the assignment list —
in walk order, i.e. most recently attached first — pairs each height
with its `bottom` offset such that: the walk order is exactly the
reversed attachment order; the most recently attached toast sits at
the base offset 20; any earlier-walked (more recent) toast's offset
range ends at least 10px below any later-walked one's offset; and the
open offset ranges `(offset, offset + height)` of distinct toasts are
pairwise disjoint. -/
theorem reposition_stacking (heights : List Nat)
    (hpos : ∀ h ∈ heights, 0 < h) (hne : heights ≠ []) :
    (repositionAll heights).length = heights.length
    ∧ (repositionAll heights).map Prod.fst = heights.reverse
    ∧ ((repositionAll heights).getD 0 (0, 0)).2 = 20
    ∧ (∀ i j, i < j → j < (repositionAll heights).length →
        ((repositionAll heights).getD i (0, 0)).2
            + ((repositionAll heights).getD i (0, 0)).1 + 10
          ≤ ((repositionAll heights).getD j (0, 0)).2)
    ∧ (∀ i j, i < j → j < (repositionAll heights).length →
        Disjoint
          (Set.Ioo (((repositionAll heights).getD i (0, 0)).2)
            (((repositionAll heights).getD i (0, 0)).2
              + ((repositionAll heights).getD i (0, 0)).1))
          (Set.Ioo (((repositionAll heights).getD j (0, 0)).2)
            (((repositionAll heights).getD j (0, 0)).2
              + ((repositionAll heights).getD j (0, 0)).1))) := by
  have hgap : ∀ i j, i < j → j < (repositionAll heights).length →
      ((repositionAll heights).getD i (0, 0)).2
          + ((repositionAll heights).getD i (0, 0)).1 + 10
        ≤ ((repositionAll heights).getD j (0, 0)).2 := by
    intro i j hij hj
    rw [repositionAll] at hj ⊢
    exact stackAssign_gap _ 0 i j hij (by rwa [stackAssign_length] at hj)
  refine ⟨?_, ?_, ?_, hgap, ?_⟩
  · rw [repositionAll, stackAssign_length, List.length_reverse]
  · rw [repositionAll, stackAssign_map_fst]
  · obtain ⟨c, t, hct⟩ := List.exists_cons_of_ne_nil
      (fun hnil => hne (List.reverse_eq_nil_iff.mp hnil))
    rw [repositionAll, hct]
    rfl
  · intro i j hij hj
    have hg := hgap i j hij hj
    rw [Set.disjoint_left]
    intro x hxi hxj
    rw [Set.mem_Ioo] at hxi hxj
    omega

/-- Witness for C3 at the concrete height list `[30, 40]`. -/
theorem reposition_stacking_witness :
    ((repositionAll [30, 40]).getD 0 (0, 0)).2 = 20 :=
  (reposition_stacking [30, 40] (by decide) (by decide)).2.2.1

/-- C4 (counterexample): the removal step that the factory's
`toast:hidden` listener schedules does not consult `autoHide` — on an
element that is still attached but has `autoHide = false`, it removes
the element anyway, so removal does not happen "only when the element
was auto-hide". -/
theorem factory_removal_ignores_autoHide :
    ({ mkToast with attached := true, autoHide := false } : ToastState).autoHide = false
    ∧ ({ mkToast with attached := true, autoHide := false } : ToastState).attached = true
    ∧ (factoryRemovalBody { mkToast with attached := true, autoHide := false }).attached
        = false :=
  ⟨rfl, rfl, rfl⟩

/-- C4 (amended): `showToast` creates one element with defaults
`{message = "", type = "info", duration = 3000, autoHide = true}` for
absent keys, attaches it, calls `show()` (making it visible with one
`toast:shown` dispatch and no `toast:hidden` dispatch) and returns it;
the registered `toast:hidden` observer removes the element after a
further ~200ms delay iff it is still attached at that point (the
double-removal guard), regardless of `autoHide`. -/
theorem showToast_spec (opts : ToastOptions) :
    (showToast opts).message = opts.message.getD ""
    ∧ (showToast opts).typeField = "toast-" ++ opts.type.getD "info"
    ∧ (showToast opts).icon = some (jsIconName (opts.type.getD "info"))
    ∧ (showToast opts).duration = some (opts.duration.getD 3000)
    ∧ (showToast opts).autoHide = opts.autoHide.getD true
    ∧ (showToast opts).attached = true
    ∧ (showToast opts).visible = true
    ∧ (showToast opts).shownEvents = 1
    ∧ (showToast opts).hiddenEvents = 0
    ∧ (∀ s : ToastState,
        (s.attached = true → factoryRemovalBody s = { s with attached := false })
        ∧ (s.attached = false → factoryRemovalBody s = s)) := by
  refine ⟨?_, ?_, ?_, ?_, ?_, ?_, ?_, ?_, ?_, ?_⟩
  · simp [showToast, setMessage, setDuration, setAutoHide, mkToast]
  · simp [showToast, setMessage, setDuration, setAutoHide, mkToast]
  · simp [showToast, setMessage, setDuration, setAutoHide, mkToast]
  · simp [showToast, setMessage, setDuration, setAutoHide, mkToast]
  · simp [showToast, setMessage, setDuration, setAutoHide, mkToast]
  · simp [showToast, setMessage, setDuration, setAutoHide, mkToast]
  · simp [showToast]
  · rw [showToast, showEl_shownEvents_of_hidden (by simp [setAutoHide, setDuration, setMessage, mkToast])]
    simp [setAutoHide, setDuration, setMessage, mkToast]
  · simp [showToast, setMessage, setDuration, setAutoHide, mkToast]
  · intro s
    constructor
    · intro hat; simp [factoryRemovalBody, hat]
    · intro hat; simp [factoryRemovalBody, hat]

/-- Witness for C4's amended claim at the empty options record and
the freshly constructed (detached) element. -/
theorem showToast_spec_witness :
    (showToast {}).message = "" ∧ (showToast {}).visible = true
    ∧ factoryRemovalBody mkToast = mkToast :=
  ⟨(showToast_spec {}).1, (showToast_spec {}).2.2.2.2.2.2.1,
   ((showToast_spec {}).2.2.2.2.2.2.2.2.2 mkToast).2 rfl⟩

/-- C5: `show()` is idempotent — on an already-visible element it
returns the element unchanged, and a second `show()` right after a
first one changes nothing (same single armed timer, same single
`toast:shown` dispatch, identical state). -/
theorem show_idempotent (s : ToastState) :
    (s.visible = true → showEl s = s) ∧ showEl (showEl s) = showEl s :=
  ⟨showEl_of_visible, showEl_of_visible (showEl_visible s)⟩

/-- Witness for C5 at the freshly constructed element. -/
theorem show_idempotent_witness : showEl (showEl mkToast) = showEl mkToast :=
  (show_idempotent (showEl mkToast)).1 (showEl_visible mkToast)

/-- C6: `hide()` on a hidden element is a no-op — the state is
unchanged, so no timer is cancelled or scheduled, no detachment is
scheduled, and no duplicate `toast:hidden` dispatch happens. -/
theorem hide_noop_when_hidden (s : ToastState) (h : s.visible = false) :
    hide s = s :=
  hide_of_hidden h

/-- Witness for C6 at the freshly constructed element. -/
theorem hide_noop_when_hidden_witness : hide mkToast = mkToast :=
  hide_noop_when_hidden mkToast rfl

/-- C7: on a hidden element, `show()` arms the auto-dismiss timer
exactly when `autoHide` is true and the duration is a positive number;
otherwise the timer queue is untouched.  `parseInt("abc", 10)` is
`NaN` (`none`), and an element whose `duration` attribute is `"abc"`
ends attribute processing (which is total, hence throw-free) with a
`NaN` duration, which disables the timer. -/
theorem show_arms_timer_iff (t : ToastState) (h : t.visible = false) :
    (((showEl t).timerId = some t.nextId
        ∧ (showEl t).pending = t.pending ++ [PendingCB.dismiss t.nextId])
      ↔ (t.autoHide = true ∧ durPos t.duration = true))
    ∧ ((t.autoHide = true ∧ durPos t.duration = true)
        ∨ ((showEl t).timerId = t.timerId ∧ (showEl t).pending = t.pending))
    ∧ parseIntJS "abc" = none
    ∧ (∀ (s : ToastState) (a : Attrs), a.duration = some "abc" →
        (connectedCallback s a).duration = none
        ∧ durPos (connectedCallback s a).duration = false) := by
  refine ⟨?_, ?_, by decide, ?_⟩
  · by_cases hc : (t.autoHide && durPos t.duration) = true
    · rw [showEl_eq_armed h hc]
      simp only [Bool.and_eq_true] at hc
      simp [hc]
    · have hc' : (t.autoHide && durPos t.duration) = false := by simpa using hc
      rw [showEl_eq_unarmed h hc']
      constructor
      · rintro ⟨h1, h2⟩
        exfalso
        have hlen := congrArg List.length h2
        simp at hlen
      · rintro ⟨hA, hD⟩
        rw [hA, hD] at hc'
        simp at hc'
  · by_cases hc : (t.autoHide && durPos t.duration) = true
    · exact Or.inl (by simpa [Bool.and_eq_true] using hc)
    · exact Or.inr (by rw [showEl_eq_unarmed h (by simpa using hc)]; exact ⟨rfl, rfl⟩)
  · intro s a ha
    have h1 : (connectedCallback s a).duration = parseIntJS "abc" := by
      cases hah : a.autoHide <;> simp [connectedCallback, ha, hah]
    have h2 : parseIntJS "abc" = none := by decide
    exact ⟨h1.trans h2, by rw [h1, h2]; rfl⟩

/-- Witness for C7: the default element (auto-hide, duration 3000)
does arm the timer. -/
theorem show_arms_timer_iff_witness : (showEl mkToast).timerId = some 0 :=
  ((show_arms_timer_iff mkToast rfl).1.mpr ⟨rfl, rfl⟩).1

/-- C8: starting from a class list whose only possible kind marker is
the current `_type` (true of a fresh element), the `type` setter first
leaves a state with no kind marker at all (remove phase), then a state
whose markers all equal the newly applied `toast-<kind>` — so at no
point do two distinct kind markers coexist; it also rewrites the icon
mapping to the one derived from the new kind.  `show()` and `hide()`
preserve the marker invariant (they only toggle the non-marker class
`visible`). -/
theorem setType_single_kind_marker (s : ToastState) (v : String) (h : MarkerInv s) :
    (∀ c ∈ (setTypeRemovePhase s).classes, isKindMarker c = false)
    ∧ MarkerInv (setType s v)
    ∧ (∀ c₁ ∈ (setType s v).classes, ∀ c₂ ∈ (setType s v).classes,
        isKindMarker c₁ = true → isKindMarker c₂ = true → c₁ = c₂)
    ∧ (setType s v).typeField = "toast-" ++ v
    ∧ (setType s v).icon = some (jsIconName v)
    ∧ MarkerInv (showEl s) ∧ MarkerInv (hide s) := by
  have hrem : ∀ c ∈ (setTypeRemovePhase s).classes, isKindMarker c = false := by
    intro c hc
    by_contra hm
    have hm' : isKindMarker c = true := by simpa using hm
    by_cases ht : s.typeField = ""
    · rw [setTypeRemovePhase, if_pos ht] at hc
      have hceq := h c hc hm'
      rw [hceq, ht] at hm'
      exact absurd hm' (by decide)
    · rw [setTypeRemovePhase, if_neg ht] at hc
      simp only [classRemove, List.mem_filter, bne_iff_ne] at hc
      exact hc.2 (h c hc.1 hm')
  have hmain : MarkerInv (setType s v) := by
    intro c hc hm
    have hcls : (setType s v).classes
        = classAdd (setTypeRemovePhase s).classes ("toast-" ++ v) := rfl
    rw [hcls] at hc
    rw [setType_typeField]
    unfold classAdd at hc
    split at hc
    · simp [hrem c hc] at hm
    · rcases List.mem_append.mp hc with h1 | h1
      · simp [hrem c h1] at hm
      · simpa using h1
  have hshow : MarkerInv (showEl s) := by
    intro c hc hm
    rw [showEl_typeField]
    by_cases hv : s.visible = true
    · rw [showEl_of_visible hv] at hc
      exact h c hc hm
    · have hv' : s.visible = false := by simpa using hv
      have hcls : (showEl s).classes = classAdd s.classes "visible" := by
        by_cases hcnd : (s.autoHide && durPos s.duration) = true
        · rw [showEl_eq_armed hv' hcnd]
        · rw [showEl_eq_unarmed hv' (by simpa using hcnd)]
      rw [hcls] at hc
      unfold classAdd at hc
      split at hc
      · exact h c hc hm
      · rcases List.mem_append.mp hc with h1 | h1
        · exact h c h1 hm
        · simp only [List.mem_singleton] at h1
          subst h1
          exact absurd hm (by decide)
  have hhide : MarkerInv (hide s) := by
    intro c hc hm
    by_cases hv : s.visible = true
    · have hcls : (hide s).classes = classRemove s.classes "visible"
          ∧ (hide s).typeField = s.typeField := by
        cases ht : s.timerId with
        | none => rw [hide_eq_of_timer_none hv ht]; exact ⟨rfl, rfl⟩
        | some t2 => rw [hide_eq_of_timer_some hv ht]; exact ⟨rfl, rfl⟩
      rw [hcls.2]
      rw [hcls.1] at hc
      simp only [classRemove, List.mem_filter] at hc
      exact h c hc.1 hm
    · rw [hide_of_hidden (by simpa using hv)] at hc ⊢
      exact h c hc hm
  refine ⟨hrem, hmain, ?_, rfl, rfl, hshow, hhide⟩
  intro c₁ h1 c₂ h2 m1 m2
  rw [hmain c₁ h1 m1, hmain c₂ h2 m2]

/-- Witness for C8 at the fresh element and kind `"success"`. -/
theorem setType_single_kind_marker_witness :
    (setType mkToast "success").typeField = "toast-" ++ "success" :=
  (setType_single_kind_marker mkToast "success"
    (by intro c hc; simp [mkToast] at hc)).2.2.2.1

/-- C9 (counterexample): `handleResponse` follows JS truthiness, not
mere presence.  With `errors` absent and
`extensions.successMessage = ""` (present but empty) no factory call
is made, although the claim demands exactly one success call; and an
error entry whose `message` is the present-but-empty string `""` gets
the fallback text instead of its own message. -/
theorem handleResponse_truthiness_counterexample :
    (handleResponse ({ data := some 1, errors := none
                       extensions := some { successMessage := some "" } }
        : GqlResponse Nat) 4000).1 = []
    ∧ (handleResponse ({ data := some 2
                         errors := some [{ message := some "" }]
                         extensions := none } : GqlResponse Nat) 4000).1
        = [{ type := "error", message := "An error occurred", duration := 4000 }]
    ∧ "" ≠ "An error occurred" :=
  ⟨rfl, rfl, by decide⟩

/-- C9 (amended): `handleResponse` makes one factory call per entry of
a non-empty `errors` array, with type `"error"` and the entry's
message — or the fallback `"An error occurred"` when that message is
absent or empty; when `errors` is absent or empty it makes exactly one
`"success"` call iff `extensions.successMessage` is present and
non-empty, with that message; and it always returns `response.data`
unchanged. -/
theorem handleResponse_spec {α : Type} (r : GqlResponse α) (d : Int) :
    (∀ errs, r.errors = some errs → errs ≠ [] →
      (handleResponse r d).1 = errs.map (fun e =>
        { type := "error", message := jsOrElse e.message "An error occurred"
          duration := d }))
    ∧ (∀ ext m, (r.errors = none ∨ r.errors = some []) →
        r.extensions = some ext → ext.successMessage = some m → m ≠ "" →
        (handleResponse r d).1 = [{ type := "success", message := m, duration := d }])
    ∧ ((r.errors = none ∨ r.errors = some []) →
        (∀ ext, r.extensions = some ext → ∀ m, ext.successMessage = some m → m = "") →
        (handleResponse r d).1 = [])
    ∧ (handleResponse r d).2 = r.data := by
  refine ⟨?_, ?_, ?_, rfl⟩
  · intro errs he hne
    simp [handleResponse, he, List.length_pos.mpr hne]
  · rintro ext m (he | he) hx hm hme <;>
      simp [handleResponse, he, successCalls, hx, hm, hme]
  · rintro (he | he) hempty <;>
    · cases hx : r.extensions with
      | none => simp [handleResponse, he, successCalls, hx]
      | some ext =>
        cases hsm : ext.successMessage with
        | none => simp [handleResponse, he, successCalls, hx, hsm]
        | some m =>
          have hm0 := hempty ext hx m hsm
          simp [handleResponse, he, successCalls, hx, hsm, hm0]

/-- Witness for C9's amended claim: a single error entry with a
non-empty message produces exactly one error toast carrying it. -/
theorem handleResponse_spec_witness :
    (handleResponse ({ data := some 3, errors := some [⟨some "boom"⟩], extensions := none }
        : GqlResponse Nat) 4000).1
      = [{ type := "error", message := "boom", duration := 4000 }] := by
  have happ := (handleResponse_spec
    ({ data := some 3, errors := some [⟨some "boom"⟩], extensions := none }
      : GqlResponse Nat) 4000).1 [⟨some "boom"⟩] rfl (by decide)
  simpa [jsOrElse] using happ

/-- C10: for a kind string not containing the substring `toast-` (in
particular the four kinds), writing the `type` property and reading it
back returns the same string: the getter strips the `toast-` class
prefix the setter added. -/
theorem type_roundtrip (s : ToastState) (v : String)
    (h : ¬ "toast-".data <:+: v.data) :
    typeGetter (setType s v) = v := by
  show jsReplaceFirst (setType s v).typeField "toast-" = v
  rw [setType_typeField, jsReplaceFirst_toast]

/-- Witness for C10 at the kind `"success"`. -/
theorem type_roundtrip_witness :
    typeGetter (setType mkToast "success") = "success" :=
  type_roundtrip mkToast "success" (by decide)

end Toast
